import Mathlib

/-!
Verification of the qdii-fund-quota scraping scripts.

The file shallowly embeds the parts of the repository that the checked
properties talk about: the DynamoDB / PostgreSQL batch upsert helpers and the
ticker-read helpers of the two ETF scripts, the market-statistics aggregation,
the paginated announcement fetch with retry/backoff of the fund-disclosure
script, the Mag 7 backtest, the JSON-repair retry of the two SlickCharts
parsers, and the import inventory of the thirteen Python source files.
External library calls (boto3, psycopg2, requests, json, yfinance) are
modelled as parameters or as outcome environments; the control flow around
them is translated from the Python source.
-/

/-- Batch size used by both ETF upsert helpers (`BATCH_SIZE = 25` in
`fetch_etf_to_dynamodb.py` line 29 and `fetch_etf_to_postgresql.py` line 25). -/
def BATCH_SIZE : Nat := 25

/-- Outcome of one DynamoDB `batch_writer` block, as observed by
`batch_write_to_dynamodb`: the block succeeds, raises `ClientError` (in which
case each individual `put_item` retry succeeds or fails according to
`itemOk`), or raises some other exception. -/
inductive DynOutcome where
  | ok
  | clientErr (itemOk : Nat → Bool)
  | otherErr

/-- A database call issued by one of the batch upsert helpers: a DynamoDB
batch-writer block, an individual `put_item`, one `execute_batch` page of the
PostgreSQL upsert, a commit, or a rollback. -/
inductive DbCall (Item : Type) where
  | batchPut (batch : List Item)
  | putItem (item : Item)
  | execPage (page : List Item)
  | commit
  | rollback
deriving DecidableEq

/-- Whether a call is an individual per-item `put_item`. -/
def DbCall.isPut {Item : Type} : DbCall Item → Bool
  | .putItem _ => true
  | _ => false

/-- Whether a call is an `execute_batch` page. -/
def DbCall.isExec {Item : Type} : DbCall Item → Bool
  | .execPage _ => true
  | _ => false

/-- Whether a call is a rollback. -/
def DbCall.isRoll {Item : Type} : DbCall Item → Bool
  | .rollback => true
  | _ => false

/-- Whether a call is a commit. -/
def DbCall.isCommit {Item : Type} : DbCall Item → Bool
  | .commit => true
  | _ => false

/-- The batches the Python loop `for i in range(0, len(items), BATCH_SIZE):
batch = items[i:i + BATCH_SIZE]` iterates over (`fetch_etf_to_dynamodb.py`
lines 374-375): successive slices of `BATCH_SIZE` items. -/
def pyChunks {α : Type} : List α → List (List α)
  | [] => []
  | x :: xs => ((x :: xs).take BATCH_SIZE) :: pyChunks ((x :: xs).drop BATCH_SIZE)
termination_by l => l.length
decreasing_by simp [BATCH_SIZE]; omega

/-- Mutable state of `batch_write_to_dynamodb`: the calls issued so far and
the `success_count` / `error_count` counters. -/
structure DynState (Item : Type) where
  calls : List (DbCall Item)
  successCount : Nat
  errorCount : Nat

/-- One iteration of the batch loop of `batch_write_to_dynamodb`
(`fetch_etf_to_dynamodb.py` lines 378-402): on success `success_count` grows
by the batch length; on `ClientError` the error count first grows by the
batch length and every item is retried with an individual `put_item`, each
success moving one unit from errors back to successes; on any other
exception the batch only counts as errors and is not retried. -/
def processDynBatch {Item : Type} (o : DynOutcome) (batch : List Item)
    (st : DynState Item) : DynState Item :=
  match o with
  | .ok =>
    { st with calls := st.calls ++ [DbCall.batchPut batch],
              successCount := st.successCount + batch.length }
  | .clientErr itemOk =>
    let okCount := ((List.range batch.length).filter (fun i => itemOk i)).length
    { calls := st.calls ++ [DbCall.batchPut batch] ++ batch.map DbCall.putItem,
      successCount := st.successCount + okCount,
      errorCount := st.errorCount + (batch.length - okCount) }
  | .otherErr =>
    { st with calls := st.calls ++ [DbCall.batchPut batch],
              errorCount := st.errorCount + batch.length }

/-- Result of `batch_write_to_dynamodb`: the calls issued, the two counters,
and whether the final `if error_count > 0: raise` fired. -/
structure DynResult (Item : Type) where
  calls : List (DbCall Item)
  successCount : Nat
  errorCount : Nat
  raised : Bool

/-- `batch_write_to_dynamodb` (`fetch_etf_to_dynamodb.py` lines 350-409):
prepares one item per input record (`prep` abstracts the timestamp and
float-to-Decimal conversion), processes the items in `BATCH_SIZE` slices
under the per-batch outcomes `env`, and raises at the end exactly when
`error_count > 0`. -/
def batchWriteToDynamodb {K D Item : Type} (prep : K → D → Item)
    (etfData : List (K × D)) (env : Nat → DynOutcome) : DynResult Item :=
  let items := etfData.map (fun p => prep p.1 p.2)
  let finalSt := ((pyChunks items).enum).foldl
    (fun st p => processDynBatch (env p.1) p.2 st) ⟨[], 0, 0⟩
  ⟨finalSt.calls, finalSt.successCount, finalSt.errorCount,
   decide (0 < finalSt.errorCount)⟩

/-- Records of a batch that end up written by neither the batch write nor a
per-item retry: none on success, the items whose individual retry failed
after a `ClientError`, and the whole batch after any other exception. -/
def unwrittenInBatch {Item : Type} (o : DynOutcome) (batch : List Item) : Nat :=
  match o with
  | .ok => 0
  | .clientErr itemOk =>
    batch.length - ((List.range batch.length).filter (fun i => itemOk i)).length
  | .otherErr => batch.length

/-- Total number of records written by neither their batch nor a per-item
retry, over all batches. -/
def unwrittenTotal {Item : Type} (env : Nat → DynOutcome)
    (chunks : List (List Item)) : Nat :=
  ((chunks.enum).map (fun p => unwrittenInBatch (env p.1) p.2)).sum

/-- Restatement of the spec's per-batch fallback behaviour, used to compare
against the calls actually issued by `batch_write_to_dynamodb`: one batch
write, followed by an individual write for every item exactly when the batch
failed with `ClientError`. -/
def specBatchCalls {Item : Type} (o : DynOutcome) (batch : List Item) :
    List (DbCall Item) :=
  match o with
  | .ok => [DbCall.batchPut batch]
  | .clientErr _ => DbCall.batchPut batch :: batch.map DbCall.putItem
  | .otherErr => [DbCall.batchPut batch]

/-- Spec-shaped full call trace of the DynamoDB helper over a chunk list. -/
def specDynCalls {Item : Type} (env : Nat → DynOutcome)
    (chunks : List (List Item)) : List (DbCall Item) :=
  ((chunks.enum).map (fun p => specBatchCalls (env p.1) p.2)).flatten

/-- The pages `psycopg2.extras.execute_batch` executes sequentially
(`fetch_etf_to_postgresql.py` line 252, `page_size = BATCH_SIZE`): each page
is one `execPage` call; an exception at a page aborts the remaining pages. -/
def pgGo {Item : Type} (env : Nat → Bool) :
    List (Nat × List Item) → List (DbCall Item) × Bool
  | [] => ([], true)
  | (k, page) :: rest =>
    if env k then
      let r := pgGo env rest
      (DbCall.execPage page :: r.1, r.2)
    else ([DbCall.execPage page], false)

/-- Result of `batch_write_to_postgresql`: the calls issued and either the
returned pair `(len(items), 0)` or the re-raised exception. -/
structure PgResult (Item : Type) where
  calls : List (DbCall Item)
  result : Except Unit (Nat × Nat)

/-- `batch_write_to_postgresql` (`fetch_etf_to_postgresql.py` lines 162-262):
prepares one item per record, runs the single `execute_batch` upsert in
pages of `BATCH_SIZE`, commits and returns `(len(items), 0)` on success, and
on any exception rolls back and re-raises — there is no per-item retry. -/
def batchWriteToPostgresql {K D Item : Type} (prep : K → D → Item)
    (etfData : List (K × D)) (env : Nat → Bool) : PgResult Item :=
  let items := etfData.map (fun p => prep p.1 p.2)
  let r := pgGo env ((pyChunks items).enum)
  if r.2 then ⟨r.1 ++ [DbCall.commit], Except.ok (items.length, 0)⟩
  else ⟨r.1 ++ [DbCall.rollback], Except.error ()⟩

/-- A Python source file of the repository together with the modules it
imports (top-level and inline `import` statements). -/
structure PyFile where
  name : String
  imports : List String

/-- Import inventory of the thirteen Python files under `backend/`,
transcribed from their `import` / `from` statements. -/
def repoFiles : List PyFile :=
  [⟨"fetch_all_slickcharts.py",
    ["re", "json", "os", "logging", "datetime", "selenium",
     "selenium.webdriver.chrome.options", "selenium.webdriver.support.ui",
     "selenium.webdriver.common.by", "selenium.webdriver.support", "time"]⟩,
   ⟨"fetch_etf_to_dynamodb.py",
    ["json", "logging", "os", "sys", "datetime", "decimal", "boto3",
     "requests", "botocore.exceptions"]⟩,
   ⟨"fetch_etf_to_postgresql.py",
    ["json", "logging", "os", "sys", "datetime", "decimal", "urllib.parse",
     "requests", "psycopg2", "psycopg2.extras", "psycopg2.pool"]⟩,
   ⟨"fetch_index_constituents.py", ["requests"]⟩,
   ⟨"fetch_index_constituents_all.py",
    ["selenium", "selenium.webdriver.common.by",
     "selenium.webdriver.chrome.options", "selenium.webdriver.support.ui",
     "selenium.webdriver.support", "time", "re", "json", "os", "logging"]⟩,
   ⟨"fetch_nasdaq100_slickcharts.py",
    ["re", "json", "os", "logging", "datetime", "selenium",
     "selenium.webdriver.chrome.options", "selenium.webdriver.support.ui",
     "time"]⟩,
   ⟨"fetch_qdii_report.py",
    ["requests", "json", "urllib.parse", "datetime", "bs4", "psycopg2",
     "psycopg2.extras", "os", "re", "logging", "time", "smtplib",
     "traceback", "email.mime.text", "email.mime.multipart", "dotenv"]⟩,
   ⟨"fetch_sp_constituents.py",
    ["selenium", "selenium.webdriver.common.by",
     "selenium.webdriver.chrome.options", "selenium.webdriver.support.ui",
     "selenium.webdriver.support", "time", "re", "json", "os", "logging"]⟩,
   ⟨"fetch_us_index_constituents.py",
    ["re", "json", "os", "logging", "datetime", "time", "yfinance",
     "dotenv", "argparse", "urllib.request", "boto3",
     "botocore.exceptions", "decimal", "requests", "bs4", "random"]⟩,
   ⟨"http_fallback_scraper.py",
    ["requests", "json", "re", "bs4", "time", "logging", "random",
     "brotli", "gzip"]⟩,
   ⟨"mag7_backtest.py",
    ["yfinance", "pandas", "numpy", "matplotlib.pyplot", "datetime",
     "typing", "warnings", "os", "dotenv", "argparse"]⟩,
   ⟨"scrape_index_history.py",
    ["sys", "json", "os", "datetime", "pathlib", "yfinance", "pandas",
     "dotenv"]⟩,
   ⟨"test_chrome_setup.py",
    ["sys", "os", "selenium", "selenium.webdriver.chrome.options",
     "selenium.webdriver.common.by", "selenium.webdriver.support.ui",
     "selenium.webdriver.support", "time", "urllib.request"]⟩]

/-- Whether a file imports any Python thread-pool or threading machinery
(`concurrent.futures` is the module providing `ThreadPoolExecutor`). -/
def usesThreadPool (f : PyFile) : Bool :=
  f.imports.any (fun m =>
    m = "concurrent.futures" || m = "threading" || m = "multiprocessing")

/-- The Python `set` built by the scan loop of the DynamoDB
`fetch_existing_etf_tickers` from the `Items` of each scan page. -/
def scanTickers (pages : List (List String)) : Finset String :=
  pages.foldl (fun acc page => page.foldl (fun a t => insert t a) acc) ∅

/-- The try-block of the DynamoDB `fetch_existing_etf_tickers`
(`fetch_etf_to_dynamodb.py` lines 419-438): the paginated scan either yields
its pages and finishes, or raises somewhere along the way (`failure`). -/
def scanLoopDyn {E : Type} (pages : List (List String)) (failure : Option E) :
    Except E (Finset String) :=
  match failure with
  | some e => Except.error e
  | none => Except.ok (scanTickers pages)

/-- `fetch_existing_etf_tickers` of the DynamoDB script: any exception from
the scan loop is caught, a warning is logged, and the empty set returned. -/
def fetchExistingEtfTickersDyn {E : Type} (pages : List (List String))
    (failure : Option E) : Finset String :=
  match scanLoopDyn pages failure with
  | Except.ok s => s
  | Except.error _ => ∅

/-- The Python `set(row[0] for row in cur.fetchall())` of the PostgreSQL
`fetch_existing_etf_tickers`. -/
def queryTickers (rows : List String) : Finset String :=
  rows.foldl (fun a t => insert t a) ∅

/-- `fetch_existing_etf_tickers` of the PostgreSQL script
(`fetch_etf_to_postgresql.py` lines 147-159): the `SELECT ticker FROM
etf_data` either yields its rows or raises; an exception is caught, a
warning logged, and the empty set returned. -/
def fetchExistingEtfTickersPg {E : Type} (res : Except E (List String)) :
    Finset String :=
  match res with
  | Except.ok rows => queryTickers rows
  | Except.error _ => ∅

/-- The `aum` field of an ETF record as `calculate_market_statistics` sees
it: absent or `None`, a numeric value (int or float, converted through
`Decimal(str(aum))`), or a non-numeric value (contributing `Decimal('0')`). -/
inductive AumVal where
  | num (v : Rat)
  | nonNum

/-- An ETF record restricted to the fields `calculate_market_statistics`
reads: `aum`, `issuer` (after the `.get('issuer', 'Unknown')` default),
`expenseRatio`, and `etfLeverage` (after its `'Unknown'` default). -/
structure EtfRecord where
  aum : Option AumVal
  issuer : String
  expenseRatio : Option Rat
  etfLeverage : String

/-- The `aum_value` added to each running total for a record: the numeric
value when `aum` is numeric, `Decimal('0')` when it is non-numeric, and
nothing (here 0) when it is `None`. -/
def aumValue : Option AumVal → Rat
  | some (AumVal.num v) => v
  | some AumVal.nonNum => 0
  | none => 0

/-- Per-issuer (or per-leverage-type) accumulator `{aum, count}`. -/
structure IssuerStat where
  aum : Rat
  count : Nat

/-- Python dict update used for `stats['issuers']` and
`stats['leverage_types']`: create the `{aum: 0, count: 0}` entry if the key
is absent, then add the record's count and AUM contribution. -/
def bumpStat (k : String) (delta : Rat) :
    List (String × IssuerStat) → List (String × IssuerStat)
  | [] => [(k, ⟨delta, 1⟩)]
  | (q, s) :: rest =>
    if q = k then (q, ⟨s.aum + delta, s.count + 1⟩) :: rest
    else (q, s) :: bumpStat k delta rest

/-- Nested dict update used for `stats['issuer_leverage']`. -/
def bumpNested (k1 k2 : String) (delta : Rat) :
    List (String × List (String × IssuerStat)) →
    List (String × List (String × IssuerStat))
  | [] => [(k1, bumpStat k2 delta [])]
  | (q, m) :: rest =>
    if q = k1 then (q, bumpStat k2 delta m) :: rest
    else (q, m) :: bumpNested k1 k2 delta rest

/-- The seven expense-ratio buckets of `calculate_market_statistics`
(`fetch_etf_to_dynamodb.py` lines 614-622). -/
structure ExpenseBuckets where
  b000to010 : Nat
  b010to025 : Nat
  b025to050 : Nat
  b050to100 : Nat
  b100to200 : Nat
  b200plus : Nat
  na : Nat

/-- Bucketing of one record's expense ratio (lines 647-663): `None` goes to
the `N/A` bucket, otherwise strict upper bounds 0.10, 0.25, 0.50, 1.00,
2.00 select the bucket. -/
def bucketAdd (er : Option Rat) (b : ExpenseBuckets) : ExpenseBuckets :=
  match er with
  | none => { b with na := b.na + 1 }
  | some r =>
    if r < 1/10 then { b with b000to010 := b.b000to010 + 1 }
    else if r < 1/4 then { b with b010to025 := b.b010to025 + 1 }
    else if r < 1/2 then { b with b025to050 := b.b025to050 + 1 }
    else if r < 1 then { b with b050to100 := b.b050to100 + 1 }
    else if r < 2 then { b with b100to200 := b.b100to200 + 1 }
    else { b with b200plus := b.b200plus + 1 }

/-- Total count across all seven buckets. -/
def bucketSum (b : ExpenseBuckets) : Nat :=
  b.b000to010 + b.b010to025 + b.b025to050 + b.b050to100 + b.b100to200 +
    b.b200plus + b.na

/-- The `stats` dictionary built by `calculate_market_statistics`. -/
structure MarketStats where
  totalAum : Rat
  totalEtfCount : Nat
  issuers : List (String × IssuerStat)
  expenseRatios : ExpenseBuckets
  leverageTypes : List (String × IssuerStat)
  issuerLeverage : List (String × List (String × IssuerStat))

/-- One iteration of the single pass of `calculate_market_statistics`
(`fetch_etf_to_dynamodb.py` lines 624-691) over a `(ticker, data)` pair. -/
def statsStep (st : MarketStats) (p : String × EtfRecord) : MarketStats :=
  let r := p.2
  let delta := aumValue r.aum
  { totalAum := st.totalAum + delta,
    totalEtfCount := st.totalEtfCount + 1,
    issuers := bumpStat r.issuer delta st.issuers,
    expenseRatios := bucketAdd r.expenseRatio st.expenseRatios,
    leverageTypes := bumpStat r.etfLeverage delta st.leverageTypes,
    issuerLeverage := bumpNested r.issuer r.etfLeverage delta st.issuerLeverage }

/-- `calculate_market_statistics` (`fetch_etf_to_dynamodb.py` lines
592-701): one pass over the ETF mapping accumulating all aggregates from
zeroed state. -/
def calculateMarketStatistics (etfData : List (String × EtfRecord)) :
    MarketStats :=
  etfData.foldl statsStep ⟨0, 0, [], ⟨0, 0, 0, 0, 0, 0, 0⟩, [], []⟩

/-- Sum of the per-key `count` fields of an issuer (or leverage) dict. -/
def statCountSum (l : List (String × IssuerStat)) : Nat :=
  (l.map (fun p => p.2.count)).sum

/-- Sum of the per-key `aum` fields of an issuer (or leverage) dict. -/
def statAumSum (l : List (String × IssuerStat)) : Rat :=
  (l.map (fun p => p.2.aum)).sum

/-- The numeric non-None `aum` value of a record, if any. -/
def numericAum (r : EtfRecord) : Option Rat :=
  match r.aum with
  | some (AumVal.num v) => some v
  | _ => none

/-- One response of the disclosure API as observed by
`fetch_all_announcements` (`fetch_qdii_report.py` lines 219-254): a non-200
HTTP status, a JSON body with `success: false`, one of the three caught
request exceptions, or a 200 JSON body carrying `aaData` and
`iTotalRecords`. -/
inductive ApiResp (Rec : Type) where
  | httpError (code : Nat)
  | apiError
  | timeoutExc
  | requestExc
  | otherExc
  | ok (aaData : List Rec) (iTotalRecords : Nat)

/-- Maximum attempts per page, `max_retries = 5` (line 180). -/
def MAX_RETRIES : Nat := 5

/-- Page size `display_length = 20` (line 169). -/
def DISPLAY_LENGTH : Nat := 20

/-- The backoff `wait_time = 2 ** retry_count * 5` slept before a retry
(line 188). -/
def backoffWait (retryCount : Nat) : Nat := 2 ^ retryCount * 5

/-- Observable outcome of the inner retry loop for one page: the sleeps
performed, the number of attempts made, the possibly-updated
`total_records`, and `page_data` (`none` when the retries were exhausted;
`some []` when the API returned an empty `aaData`). -/
structure PageFetch (Rec : Type) where
  sleeps : List Nat
  attempts : Nat
  totalRecords : Option Nat
  pageData : Option (List Rec)

/-- The inner `while retry_count < max_retries and page_data is None` loop
(`fetch_qdii_report.py` lines 185-254): sleep `backoffWait retry_count`
before every attempt but the first, stop at the first successful response
(which sets `total_records` if still unset), and give up once the retry
budget is exhausted. -/
def fetchPageGo {Rec : Type} (resp : Nat → ApiResp Rec)
    (retryCount budget : Nat) (tot : Option Nat) : PageFetch Rec :=
  match budget with
  | 0 => ⟨[], 0, tot, none⟩
  | b + 1 =>
    let pre : List Nat := if 0 < retryCount then [backoffWait retryCount] else []
    match resp retryCount with
    | ApiResp.ok aa t =>
      ⟨pre, 1, (match tot with | none => some t | some x => some x), some aa⟩
    | _ =>
      let r := fetchPageGo resp (retryCount + 1) b tot
      ⟨pre ++ r.sleeps, r.attempts + 1, r.totalRecords, r.pageData⟩

/-- The retry loop for one page, entered with `retry_count = 0` and the full
`MAX_RETRIES` budget. -/
def fetchPage {Rec : Type} (resp : Nat → ApiResp Rec) (tot : Option Nat) :
    PageFetch Rec :=
  fetchPageGo resp 0 MAX_RETRIES tot

/-- Outer-loop state of `fetch_all_announcements`: `all_data`, `start`, and
`total_records`. -/
structure QdiiState (Rec : Type) where
  allData : List Rec
  start : Nat
  totalRecords : Option Nat

/-- Exit condition of `while total_records is None or start < total_records`. -/
def qdiiShouldStop {Rec : Type} (st : QdiiState Rec) : Bool :=
  match st.totalRecords with
  | some t => decide (t ≤ st.start)
  | none => false

/-- The outer pagination loop of `fetch_all_announcements`
(`fetch_qdii_report.py` lines 179-260), with an explicit step budget `fuel`
(`none` means the loop was still running after `fuel` iterations). A page
whose retries are exhausted breaks out of the loop; an empty `aaData` page
breaks only the inner loop, so the outer loop continues with `start`
unchanged; a nonempty page extends `all_data` and advances `start` by
`DISPLAY_LENGTH`. The environment `env` maps a page offset and an attempt
number to the API response. -/
def fetchAllGo {Rec : Type} (env : Nat → Nat → ApiResp Rec) (fuel : Nat)
    (st : QdiiState Rec) : Option (List Rec × Option Nat) :=
  match fuel with
  | 0 => none
  | f + 1 =>
    if qdiiShouldStop st then some (st.allData, st.totalRecords)
    else
      let r := fetchPage (env st.start) st.totalRecords
      match r.pageData with
      | none => some (st.allData, r.totalRecords)
      | some [] => fetchAllGo env f { st with totalRecords := r.totalRecords }
      | some (x :: xs) =>
        fetchAllGo env f
          ⟨st.allData ++ (x :: xs), st.start + DISPLAY_LENGTH, r.totalRecords⟩

/-- `fetch_all_announcements` run from its initial state (`all_data = []`,
`start = 0`, `total_records = None`) for at most `fuel` outer iterations. -/
def fetchAllAnnouncements {Rec : Type} (env : Nat → Nat → ApiResp Rec)
    (fuel : Nat) : Option (List Rec × Option Nat) :=
  fetchAllGo env fuel ⟨[], 0, none⟩

/-- `INITIAL_CAPITAL = 100000` (`mag7_backtest.py` line 27). -/
def INITIAL_CAPITAL : Rat := 100000

/-- The Mag 7 ticker list (`mag7_backtest.py` line 22). -/
def MAG7_TICKERS : List String :=
  ["AAPL", "MSFT", "GOOGL", "AMZN", "META", "NVDA", "TSLA"]

/-- `POSITION_SIZE = INITIAL_CAPITAL / len(MAG7_TICKERS)` (line 28). -/
def POSITION_SIZE : Rat := INITIAL_CAPITAL / (MAG7_TICKERS.length : Rat)

/-- `DROP_THRESHOLD = 0.20` (line 26). -/
def DROP_THRESHOLD : Rat := 1/5

/-- One recorded BUY trade (`mag7_backtest.py` lines 137-145); `drawdown`
stores `drawdown_value * 100` as in the source. -/
structure Trade where
  date : Nat
  ticker : String
  price : Rat
  shares : Rat
  ath : Rat
  drawdown : Rat
deriving DecidableEq

/-- Mutable state of `backtest_strategy`: `cash`, the per-ticker portfolio
(`shares`, `last_buy_date`, `last_buy_price`), the recorded trades and the
daily portfolio values. -/
structure BtState where
  cash : Rat
  shares : String → Rat
  lastBuyDate : String → Option Nat
  lastBuyPrice : String → Option Rat
  trades : List Trade
  portfolioValues : List (Nat × Rat)

/-- Initial state: full cash, no holdings, no trades. -/
def btInitState : BtState :=
  ⟨INITIAL_CAPITAL, fun _ => 0, fun _ => none, fun _ => none, [], []⟩

/-- Lookup in an association list, modelling Python dict / pandas index
access (`ticker in data`, `date in data[ticker].index`). -/
def pyGet {κ β : Type} [DecidableEq κ] (k : κ) : List (κ × β) → Option β
  | [] => none
  | (q, v) :: rest => if q = k then some v else pyGet k rest

/-- `data[ticker].loc[:date, 'Close'].max()`: the all-time high of a close
series over the dates up to and including `d` (`mag7_backtest.py` lines
124-125). Only entries with date `≤ d` are consulted. -/
def athAt (series : List (Nat × Rat)) (d : Nat) : Rat :=
  ((((series.filter (fun p => p.1 ≤ d))).map Prod.snd).max?).getD 0

/-- Processing of one ticker on one trading day (`mag7_backtest.py` lines
116-152): skip if the ticker has no data for the day; otherwise compute the
ATH over dates up to the current day, the drawdown, buy when the drawdown
is at or below `-drop_threshold`, the ticker is not held, and cash covers
`POSITION_SIZE`; finally add the value of any holding to the running
`daily_value` (second component of the accumulator). -/
def tickStep (threshold : Rat) (data : List (String × List (Nat × Rat)))
    (d : Nat) (acc : BtState × Rat) (t : String) : BtState × Rat :=
  (pyGet t data).elim acc (fun series =>
    (pyGet d series).elim acc (fun currentPrice =>
      let st := acc.1
      let ath := athAt series d
      let drawdownValue := (currentPrice - ath) / ath
      let st2 :=
        if drawdownValue ≤ -threshold ∧ st.shares t = 0 ∧
            POSITION_SIZE ≤ st.cash then
          let sharesToBuy := POSITION_SIZE / currentPrice
          { st with
            cash := st.cash - POSITION_SIZE,
            shares := fun u => if u = t then sharesToBuy else st.shares u,
            lastBuyDate := fun u => if u = t then some d else st.lastBuyDate u,
            lastBuyPrice :=
              fun u => if u = t then some currentPrice else st.lastBuyPrice u,
            trades := st.trades ++
              [⟨d, t, currentPrice, sharesToBuy, ath, drawdownValue * 100⟩] }
        else st
      let dv := if 0 < st2.shares t then acc.2 + st2.shares t * currentPrice
                else acc.2
      (st2, dv)))

/-- One trading day (`mag7_backtest.py` lines 112-157): `daily_value` starts
from the cash at the top of the day, every ticker is processed, and the
resulting daily value is appended to `portfolio_values`. -/
def dayStep (threshold : Rat) (data : List (String × List (Nat × Rat)))
    (tickers : List String) (st : BtState) (d : Nat) : BtState :=
  let r := tickers.foldl (tickStep threshold data d) (st, st.cash)
  { r.1 with portfolioValues := r.1.portfolioValues ++ [(d, r.2)] }

/-- The day loop of `backtest_strategy` over an explicit date list. -/
def runDays (threshold : Rat) (data : List (String × List (Nat × Rat)))
    (tickers : List String) (st : BtState) (dates : List Nat) : BtState :=
  dates.foldl (dayStep threshold data tickers) st

/-- Insertion into a sorted list, for the `sorted(...)` of the source. -/
def insertSorted (x : Nat) : List Nat → List Nat
  | [] => [x]
  | y :: ys => if x ≤ y then x :: y :: ys else y :: insertSorted x ys

/-- Insertion sort on naturals. -/
def sortNat (l : List Nat) : List Nat := l.foldr insertSorted []

/-- `dates = sorted(set.union(*[set(df.index) for df in data.values()]))`
(`mag7_backtest.py` line 101): the sorted, duplicate-free union of all
tickers' date indices. -/
def datesOf (data : List (String × List (Nat × Rat))) : List Nat :=
  sortNat (((data.map (fun p => p.2.map Prod.fst)).flatten).dedup)

/-- `backtest_strategy` (`mag7_backtest.py` lines 94-162): iterate the
combined trading days over the Mag 7 tickers from the initial state. -/
def backtestStrategy (data : List (String × List (Nat × Rat)))
    (threshold : Rat) : BtState :=
  runDays threshold data MAG7_TICKERS btInitState (datesOf data)

/-- All close prices occurring in a data set are positive (true of any real
price series; hypothesis for the capital invariants). -/
def PricesPos (data : List (String × List (Nat × Rat))) : Prop :=
  ∀ p ∈ data, ∀ q ∈ p.2, 0 < q.2

/-- Trades of a state carrying a given ticker. -/
def tradeCount (st : BtState) (t : String) : Nat :=
  st.trades.countP (fun tr => tr.ticker = t)

/-- Small concrete price data set used to exercise the backtest: one ticker
with a 30% drop from 100 to 70 on day 1. -/
def btData0 : List (String × List (Nat × Rat)) :=
  [("AAPL", [(0, 100), (1, 70)])]

/-- Python `\s` on the ASCII range, as used by the JSON-repair regexes. -/
def isWs (c : Char) : Bool :=
  c = ' ' || c = '\t' || c = '\n' || c = '\x0d' || c = '\x0b' || c = '\x0c'

/-- Python `\w` on the ASCII range: letters, digits and underscore. -/
def isWordChar (c : Char) : Bool := c.isAlphanum || c = '_'

/-- Attempt to match `\s*` followed by `close` at the head of the list,
returning the remainder after the match. -/
def matchCommaClose (close : Char) : List Char → Option (List Char)
  | [] => none
  | c :: rest =>
    if isWs c then matchCommaClose close rest
    else if c = close then some rest else none

/-- One pass of `re.sub(r',\s*CLOSE', 'CLOSE', s)` (trailing-comma removal,
`fetch_all_slickcharts.py` lines 238-239): scan left to right, and replace
every comma followed by whitespace and `close` with `close` alone. The fuel
argument starts at the length of the list and never runs out, since every
step consumes at least one character. -/
def subCommaCloseGo (close : Char) : Nat → List Char → List Char
  | 0, l => l
  | _ + 1, [] => []
  | fuel + 1, c :: rest =>
    if c = ',' then
      match matchCommaClose close rest with
      | some tl => close :: subCommaCloseGo close fuel tl
      | none => ',' :: subCommaCloseGo close fuel rest
    else c :: subCommaCloseGo close fuel rest

/-- Trailing-comma removal before `close`, over a whole character list. -/
def subCommaClose (close : Char) (l : List Char) : List Char :=
  subCommaCloseGo close l.length l

/-- One pass of `re.sub(r'(\w+):', r'"\1":', s)` (bare-key quoting,
`fetch_all_slickcharts.py` line 240): every maximal word-character run
immediately followed by a colon is wrapped in double quotes. -/
def quoteKeysGo : Nat → List Char → List Char
  | 0, l => l
  | _ + 1, [] => []
  | fuel + 1, c :: rest =>
    if isWordChar c then
      let run := c :: rest.takeWhile isWordChar
      match rest.dropWhile isWordChar with
      | ':' :: tl => '"' :: (run ++ ('"' :: ':' :: quoteKeysGo fuel tl))
      | other => run ++ quoteKeysGo fuel other
    else c :: quoteKeysGo fuel rest

/-- Bare-key quoting over a whole character list. -/
def quoteKeys (l : List Char) : List Char := quoteKeysGo l.length l

/-- The string-level JSON patches applied on `json.JSONDecodeError` by
`parse_index_data_from_html` (`fetch_all_slickcharts.py` lines 237-240):
strip trailing commas before `}` and `]`, then quote bare keys. -/
def fixJsData (s : String) : String :=
  String.mk (quoteKeys (subCommaClose ']' (subCommaClose '}' s.data)))

/-- The JSON phase of `parse_index_data_from_html` (`fetch_all_slickcharts.py`
lines 226-259), from the point where the regex search has produced
`js_data`: try `json.loads`; on failure apply the string patches and try
once more; give up with the empty list if that also fails. `jsonLoads`
abstracts `json.loads` (`none` models `JSONDecodeError`) and `companyList`
abstracts the extraction of the company list from the parsed document and
its conversion to the standardized format. -/
def parseIndexJsonPhase {J C : Type} (jsonLoads : String → Option J)
    (companyList : J → List C) (jsData : String) : List C :=
  match jsonLoads jsData with
  | some d => companyList d
  | none =>
    match jsonLoads (fixJsData jsData) with
    | some d => companyList d
    | none => []

/-- The JSON phase of `parse_slickcharts_javascript`
(`fetch_us_index_constituents.py` lines 312-363), from the point where the
regex search has produced `js_data`: try `json.loads` once; any
`JSONDecodeError` is caught at lines 361-363 and the empty list returned —
no string patches, no second parse. -/
def parseSlickchartsJsonPhase {J C : Type} (jsonLoads : String → Option J)
    (companyList : J → List C) (jsData : String) : List C :=
  match jsonLoads jsData with
  | some d => companyList d
  | none => []

/-- Concrete stand-in for `json.loads` accepting exactly the patched form of
the sample object: it fails on the bare-key source text and succeeds on the
quoted form. -/
def jsonLoads0 : String → Option String :=
  fun s => if s = "\x7b\"a\":1\x7d" then some s else none

/-- Concrete stand-in for the company-list extraction: wrap the parsed
document in a singleton list. -/
def companyList0 : String → List String := fun d => [d]

/-- Sample embedded JavaScript object with a bare key, failing `json.loads`
until the keys are quoted. -/
def jsData0 : String := "\x7ba:1\x7d"

/-- Single-day concrete price data used to exercise the backtest theorems. -/
def btData1 : List (String × List (Nat × Rat)) := [("AAPL", [(0, 100)])]

/-- What the claim asserts of every recorded BUY trade: the price is the
close of the trade's day, the stored ATH is the maximum close over dates up
to and including that day, the stored drawdown is the percentage form of
`(price - ath) / ath`, and that drawdown is at or below the negative drop
threshold. -/
def TradeWellFormed (data : List (String × List (Nat × Rat))) (threshold : Rat)
    (tr : Trade) : Prop :=
  ∃ series, pyGet tr.ticker data = some series ∧
    pyGet tr.date series = some tr.price ∧
    tr.ath = athAt series tr.date ∧
    tr.drawdown = (tr.price - tr.ath) / tr.ath * 100 ∧
    (tr.price - tr.ath) / tr.ath ≤ -threshold

/-- Capital invariant of the backtest state: cash is never negative, cash
plus `POSITION_SIZE` per recorded trade is exactly the initial capital, and
every ticker either was never bought (zero shares) or was bought exactly
once (positive shares). -/
def BtInv (st : BtState) : Prop :=
  0 ≤ st.cash ∧
  st.cash + POSITION_SIZE * (st.trades.length : Rat) = INITIAL_CAPITAL ∧
  ∀ t, (st.shares t = 0 ∧ tradeCount st t = 0) ∨
    (0 < st.shares t ∧ tradeCount st t = 1)

/-- C6 counterexample: no file in the repository imports `concurrent.futures`
(the module of `ThreadPoolExecutor`), `threading`, or `multiprocessing`, so
the number of thread-pool-using helpers is 0, not 1 — in this snapshot even
the financial-ratio fetch (in `fetch_us_index_constituents.py`) issues its
batched yfinance calls sequentially. -/
theorem thread_pool_usage_counterexample :
    (repoFiles.filter (fun f => usesThreadPool f)).length = 0 ∧
    repoFiles.length = 13 := by decide

/-- C6 (amended): every script of the repository, the financial-ratio fetch
helper included, runs single-threaded and synchronous — none of the
thirteen source files imports any thread-pool or threading module. -/
theorem no_thread_pool_in_repo :
    repoFiles.all (fun f => !usesThreadPool f) = true ∧
    repoFiles.length = 13 := by decide

/-- C2 counterexample: on an embedded object with a bare key, the first
`json.loads` fails, the patched text parses, and `parse_index_data_from_html`
recovers the company list — but `parse_slickcharts_javascript` returns the
empty list without ever applying the patches, contradicting the claim that
both functions retry after patching. -/
theorem slickcharts_no_patch_retry_counterexample :
    jsonLoads0 jsData0 = none ∧
    jsonLoads0 (fixJsData jsData0) = some ("\x7b\"a\":1\x7d") ∧
    parseIndexJsonPhase jsonLoads0 companyList0 jsData0 = ["\x7b\"a\":1\x7d"] ∧
    parseSlickchartsJsonPhase jsonLoads0 companyList0 jsData0 = [] := by
  refine ⟨by decide, by decide, by decide, by decide⟩

/-- C2 (amended): when the regex-matched JavaScript object fails the first
`json.loads`, `parse_index_data_from_html` applies the string-level patches
(quote bare keys, strip trailing commas) and retries the parse, while
`parse_slickcharts_javascript` gives up immediately and returns the empty
list without patching. -/
theorem json_patch_retry_amended {J C : Type} (jsonLoads : String → Option J)
    (companyList : J → List C) (jsData : String)
    (h : jsonLoads jsData = none) :
    parseIndexJsonPhase jsonLoads companyList jsData =
      (match jsonLoads (fixJsData jsData) with
       | some d => companyList d
       | none => []) ∧
    parseSlickchartsJsonPhase jsonLoads companyList jsData = [] := by
  constructor
  · unfold parseIndexJsonPhase
    rw [h]
  · unfold parseSlickchartsJsonPhase
    rw [h]

/-- C2 witness: the amended theorem applied at the concrete bare-key sample,
whose first parse fails. -/
theorem json_patch_retry_amended_witness :
    jsonLoads0 jsData0 = none ∧
    (parseIndexJsonPhase jsonLoads0 companyList0 jsData0 =
      (match jsonLoads0 (fixJsData jsData0) with
       | some d => companyList0 d
       | none => []) ∧
    parseSlickchartsJsonPhase jsonLoads0 companyList0 jsData0 = []) :=
  ⟨by decide, json_patch_retry_amended jsonLoads0 companyList0 jsData0 (by decide)⟩

/-- C10: `fetch_all_announcements` does not terminate when the API keeps
reporting 20 total records while returning an empty `aaData` page: the
`break` on an empty page leaves only the inner retry loop, `start` is never
advanced, and the outer loop refetches the same offset forever — for every
step budget the loop is still running. -/
theorem fetch_all_announcements_nontermination (fuel : Nat) :
    fetchAllAnnouncements (fun _ _ => ApiResp.ok ([] : List Unit) 20) fuel =
      none := by
  have key : ∀ f : Nat,
      fetchAllGo (fun _ _ => ApiResp.ok ([] : List Unit) 20) f ⟨[], 0, some 20⟩ =
        none := by
    intro f
    induction f with
    | zero => rfl
    | succ n ih => exact ih
  cases fuel with
  | zero => rfl
  | succ n => exact key n

/-- Filtering positives from a range of positive naturals keeps everything. -/
theorem filter_pos_range_from : ∀ (n s : Nat), 0 < s →
    (List.range' s n).filter (fun i => decide (0 < i)) = List.range' s n := by
  intro n
  induction n with
  | zero => intro s _; rfl
  | succ m ih =>
    intro s hs
    rw [List.range'_succ, List.filter_cons, if_pos (by simpa using hs),
      ih (s + 1) (by omega)]

/-- Filtering positives from a range starting at 0 drops exactly the head. -/
theorem filter_pos_range_zero (a : Nat) :
    (List.range' 0 a).filter (fun i => decide (0 < i)) = List.range' 1 (a - 1) := by
  cases a with
  | zero => rfl
  | succ n =>
    rw [List.range'_succ, List.filter_cons, if_neg (by simp),
      filter_pos_range_from n 1 (by omega)]
    simp

/-- The retry loop makes at most `budget` attempts and sleeps the backoff of
every retry count it passes through, except the first attempt. -/
theorem fetchPageGo_spec {Rec : Type} (resp : Nat → ApiResp Rec) :
    ∀ (budget retryCount : Nat) (tot : Option Nat),
      (fetchPageGo resp retryCount budget tot).attempts ≤ budget ∧
      (fetchPageGo resp retryCount budget tot).sleeps =
        ((List.range' retryCount
            (fetchPageGo resp retryCount budget tot).attempts).filter
          (fun i => decide (0 < i))).map backoffWait := by
  intro budget
  induction budget with
  | zero =>
    intro r tot
    exact ⟨Nat.le_refl 0, rfl⟩
  | succ b ih =>
    intro r tot
    simp only [fetchPageGo]
    cases h : resp r with
    | ok aa t =>
      refine ⟨Nat.succ_le_succ (Nat.zero_le b), ?_⟩
      by_cases hr : 0 < r
      · simp [hr, List.range'_succ]
      · simp [hr, List.range'_succ, Nat.eq_zero_of_not_pos hr]
    | httpError code =>
      obtain ⟨iha, ihs⟩ := ih (r + 1) tot
      refine ⟨Nat.succ_le_succ iha, ?_⟩
      simp only [List.range'_succ, List.filter_cons, ihs]
      by_cases hr : 0 < r
      · simp [hr]
      · simp [hr]
    | apiError =>
      obtain ⟨iha, ihs⟩ := ih (r + 1) tot
      refine ⟨Nat.succ_le_succ iha, ?_⟩
      simp only [List.range'_succ, List.filter_cons, ihs]
      by_cases hr : 0 < r
      · simp [hr]
      · simp [hr]
    | timeoutExc =>
      obtain ⟨iha, ihs⟩ := ih (r + 1) tot
      refine ⟨Nat.succ_le_succ iha, ?_⟩
      simp only [List.range'_succ, List.filter_cons, ihs]
      by_cases hr : 0 < r
      · simp [hr]
      · simp [hr]
    | requestExc =>
      obtain ⟨iha, ihs⟩ := ih (r + 1) tot
      refine ⟨Nat.succ_le_succ iha, ?_⟩
      simp only [List.range'_succ, List.filter_cons, ihs]
      by_cases hr : 0 < r
      · simp [hr]
      · simp [hr]
    | otherExc =>
      obtain ⟨iha, ihs⟩ := ih (r + 1) tot
      refine ⟨Nat.succ_le_succ iha, ?_⟩
      simp only [List.range'_succ, List.filter_cons, ihs]
      by_cases hr : 0 < r
      · simp [hr]
      · simp [hr]

/-- C4: for every page, the retry loop of `fetch_all_announcements` makes at
most `MAX_RETRIES = 5` attempts, the sleeps before the retries are exactly
`backoffWait 1, backoffWait 2, ...` (that is, `2 ^ retry_count * 5` seconds
before the retry numbered `retry_count`), and these waits double each time
starting from 10 seconds. -/
theorem fetch_page_retry_backoff {Rec : Type} (resp : Nat → ApiResp Rec)
    (tot : Option Nat) :
    (fetchPage resp tot).attempts ≤ MAX_RETRIES ∧
    (fetchPage resp tot).sleeps =
      (List.range' 1 ((fetchPage resp tot).attempts - 1)).map backoffWait ∧
    (∀ r, backoffWait (r + 1) = 2 * backoffWait r) ∧
    backoffWait 1 = 10 := by
  obtain ⟨ha, hs⟩ := fetchPageGo_spec resp MAX_RETRIES 0 tot
  refine ⟨ha, ?_, ?_, rfl⟩
  · rw [show fetchPage resp tot = fetchPageGo resp 0 MAX_RETRIES tot from rfl,
      hs, filter_pos_range_zero]
  · intro r
    simp [backoffWait, pow_succ]
    ring

/-- Membership after folding `insert` over one page. -/
theorem mem_foldl_insert (page : List String) :
    ∀ (acc : Finset String) (t : String),
      t ∈ page.foldl (fun a x => insert x a) acc ↔ t ∈ acc ∨ t ∈ page := by
  induction page with
  | nil => intro acc t; simp
  | cons y ys ih =>
    intro acc t
    rw [List.foldl_cons, ih (insert y acc) t, Finset.mem_insert, List.mem_cons]
    tauto

/-- Membership in the set built by the DynamoDB scan loop. -/
theorem mem_scanTickers (pages : List (List String)) :
    ∀ (t : String), t ∈ scanTickers pages ↔ ∃ page ∈ pages, t ∈ page := by
  have general : ∀ (ps : List (List String)) (acc : Finset String) (t : String),
      t ∈ ps.foldl (fun acc page => page.foldl (fun a x => insert x a) acc) acc ↔
        t ∈ acc ∨ ∃ page ∈ ps, t ∈ page := by
    intro ps
    induction ps with
    | nil => intro acc t; simp
    | cons p rest ih =>
      intro acc t
      rw [List.foldl_cons, ih, mem_foldl_insert]
      simp only [List.mem_cons]
      constructor
      · rintro ((h1 | h2) | ⟨q, hq, ht⟩)
        · exact Or.inl h1
        · exact Or.inr ⟨p, Or.inl rfl, h2⟩
        · exact Or.inr ⟨q, Or.inr hq, ht⟩
      · rintro (h1 | ⟨q, hq | hq, ht⟩)
        · exact Or.inl (Or.inl h1)
        · subst hq; exact Or.inl (Or.inr ht)
        · exact Or.inr ⟨q, hq, ht⟩
  intro t
  rw [scanTickers, general]
  simp

/-- C7: in both ETF scripts, `fetch_existing_etf_tickers` returns the empty
set on any database failure and, on success, exactly the set of ticker keys
read — the catch-all around the read means no exception ever escapes. -/
theorem fetch_existing_tickers_error_handling {E : Type}
    (pages : List (List String)) (failure : Option E)
    (res : Except E (List String)) :
    fetchExistingEtfTickersDyn pages failure =
      (match failure with
       | some _ => (∅ : Finset String)
       | none => scanTickers pages) ∧
    (∀ t, t ∈ scanTickers pages ↔ ∃ page ∈ pages, t ∈ page) ∧
    fetchExistingEtfTickersPg res =
      (match res with
       | Except.ok rows => queryTickers rows
       | Except.error _ => (∅ : Finset String)) ∧
    (∀ (t : String) (rows : List String), t ∈ queryTickers rows ↔ t ∈ rows) := by
  refine ⟨?_, mem_scanTickers pages, ?_, ?_⟩
  · cases failure with
    | some e => rfl
    | none => rfl
  · cases res with
    | ok rows => rfl
    | error e => rfl
  · intro t rows
    rw [queryTickers, mem_foldl_insert]
    simp

/-- Each `bumpStat` adds exactly one to the total count of the dict. -/
theorem statCountSum_bumpStat (k : String) (delta : Rat) :
    ∀ l : List (String × IssuerStat),
      statCountSum (bumpStat k delta l) = statCountSum l + 1 := by
  intro l
  induction l with
  | nil => rfl
  | cons p rest ih =>
    obtain ⟨q, s⟩ := p
    rw [bumpStat]
    by_cases hq : q = k
    · simp [hq, statCountSum]
      omega
    · simp only [hq, if_false, statCountSum, List.map_cons, List.sum_cons]
      have := ih
      simp only [statCountSum] at this
      omega

/-- Each `bumpStat` adds exactly the record's AUM contribution to the total
AUM of the dict. -/
theorem statAumSum_bumpStat (k : String) (delta : Rat) :
    ∀ l : List (String × IssuerStat),
      statAumSum (bumpStat k delta l) = statAumSum l + delta := by
  intro l
  induction l with
  | nil => simp [bumpStat, statAumSum]
  | cons p rest ih =>
    obtain ⟨q, s⟩ := p
    rw [bumpStat]
    by_cases hq : q = k
    · simp [hq, statAumSum]
      ring
    · simp only [hq, if_false, statAumSum, List.map_cons, List.sum_cons]
      have := ih
      simp only [statAumSum] at this
      rw [this]
      ring

/-- Each `bucketAdd` adds exactly one across all seven buckets. -/
theorem bucketSum_bucketAdd (er : Option Rat) (b : ExpenseBuckets) :
    bucketSum (bucketAdd er b) = bucketSum b + 1 := by
  cases er with
  | none =>
    simp only [bucketAdd, bucketSum]
    omega
  | some r =>
    simp only [bucketAdd]
    split
    · simp [bucketSum]; omega
    · split
      · simp [bucketSum]; omega
      · split
        · simp [bucketSum]; omega
        · split
          · simp [bucketSum]; omega
          · split
            · simp [bucketSum]; omega
            · simp [bucketSum]; omega

/-- Map-sum of AUM contributions equals the filterMap-sum of the numeric
non-None AUM values: non-numeric and absent values contribute zero. -/
theorem aum_contrib_eq_numeric_sum :
    ∀ l : List (String × EtfRecord),
      (l.map (fun p => aumValue p.2.aum)).sum =
        (l.filterMap (fun p => numericAum p.2)).sum := by
  intro l
  induction l with
  | nil => rfl
  | cons p rest ih =>
    rw [List.map_cons, List.sum_cons, ih, List.filterMap_cons]
    rcases h : p.2.aum with _ | v
    · simp [aumValue, numericAum, h]
    · cases v with
      | num w => simp [aumValue, numericAum, h]
      | nonNum => simp [aumValue, numericAum, h]

/-- Running totals of the single pass of `calculate_market_statistics` from
an arbitrary starting state. -/
theorem stats_foldl_spec :
    ∀ (l : List (String × EtfRecord)) (st : MarketStats),
      (l.foldl statsStep st).totalEtfCount = st.totalEtfCount + l.length ∧
      (l.foldl statsStep st).totalAum =
        st.totalAum + (l.map (fun p => aumValue p.2.aum)).sum ∧
      statCountSum (l.foldl statsStep st).issuers =
        statCountSum st.issuers + l.length ∧
      statAumSum (l.foldl statsStep st).issuers =
        statAumSum st.issuers + (l.map (fun p => aumValue p.2.aum)).sum ∧
      bucketSum (l.foldl statsStep st).expenseRatios =
        bucketSum st.expenseRatios + l.length := by
  intro l
  induction l with
  | nil =>
    intro st
    simp
  | cons p rest ih =>
    intro st
    obtain ⟨h1, h2, h3, h4, h5⟩ := ih (statsStep st p)
    rw [List.foldl_cons]
    refine ⟨?_, ?_, ?_, ?_, ?_⟩
    · rw [h1]
      simp [statsStep]
      omega
    · rw [h2]
      simp [statsStep]
      ring
    · rw [h3]
      simp only [statsStep, statCountSum_bumpStat]
      simp [statCountSum_bumpStat]
      omega
    · rw [h4]
      simp only [statsStep]
      rw [statAumSum_bumpStat]
      simp
      ring
    · rw [h5]
      simp only [statsStep]
      rw [bucketSum_bucketAdd]
      simp
      omega

/-- C3: `calculate_market_statistics` produces consistent aggregates in one
pass: the total count is the number of records, the per-issuer counts and
the expense-ratio buckets (N/A included) each sum to that count, and the
total AUM equals both the sum of the per-issuer AUM totals and the sum of
the numeric non-None `aum` values. -/
theorem market_statistics_consistent (etfData : List (String × EtfRecord)) :
    (calculateMarketStatistics etfData).totalEtfCount = etfData.length ∧
    statCountSum (calculateMarketStatistics etfData).issuers =
      (calculateMarketStatistics etfData).totalEtfCount ∧
    bucketSum (calculateMarketStatistics etfData).expenseRatios =
      (calculateMarketStatistics etfData).totalEtfCount ∧
    (calculateMarketStatistics etfData).totalAum =
      statAumSum (calculateMarketStatistics etfData).issuers ∧
    (calculateMarketStatistics etfData).totalAum =
      (etfData.filterMap (fun p => numericAum p.2)).sum := by
  obtain ⟨h1, h2, h3, h4, h5⟩ :=
    stats_foldl_spec etfData ⟨0, 0, [], ⟨0, 0, 0, 0, 0, 0, 0⟩, [], []⟩
  rw [calculateMarketStatistics]
  refine ⟨?_, ?_, ?_, ?_, ?_⟩
  · rw [h1]
    simp
  · rw [h3, h1]
    simp [statCountSum]
  · rw [h5, h1]
    simp [bucketSum]
  · rw [h2, h4]
    simp [statAumSum]
  · rw [h2, aum_contrib_eq_numeric_sum]
    simp

/-- The `BATCH_SIZE` slices reassemble to the original item list. -/
theorem pyChunks_flatten {α : Type} (l : List α) : (pyChunks l).flatten = l := by
  induction l using pyChunks.induct with
  | case1 => simp [pyChunks]
  | case2 x xs ih =>
    rw [pyChunks, List.flatten_cons, ih]
    exact List.take_append_drop BATCH_SIZE (x :: xs)

/-- Every slice is nonempty and holds at most `BATCH_SIZE` items. -/
theorem pyChunks_sizes {α : Type} (l : List α) :
    (pyChunks l).all
      (fun b => decide (0 < b.length) && decide (b.length ≤ BATCH_SIZE)) =
      true := by
  induction l using pyChunks.induct with
  | case1 => simp [pyChunks]
  | case2 x xs ih =>
    rw [pyChunks, List.all_cons, ih, Bool.and_true]
    simp [List.length_take, BATCH_SIZE]

/-- One batch iteration: the two counters together grow by the batch length,
the error counter grows by exactly the unwritten records of the batch, and
the issued calls are the spec-shaped ones. -/
theorem processDynBatch_spec {Item : Type} (o : DynOutcome)
    (batch : List Item) (st : DynState Item) :
    (processDynBatch o batch st).successCount +
      (processDynBatch o batch st).errorCount =
      st.successCount + st.errorCount + batch.length ∧
    (processDynBatch o batch st).errorCount =
      st.errorCount + unwrittenInBatch o batch ∧
    (processDynBatch o batch st).calls = st.calls ++ specBatchCalls o batch := by
  cases o with
  | ok =>
    refine ⟨by simp [processDynBatch]; omega, by simp [processDynBatch, unwrittenInBatch], rfl⟩
  | clientErr itemOk =>
    have hle : ((List.range batch.length).filter (fun i => itemOk i)).length ≤
        batch.length := by
      calc ((List.range batch.length).filter (fun i => itemOk i)).length ≤
          (List.range batch.length).length := List.length_filter_le _ _
        _ = batch.length := List.length_range batch.length
    refine ⟨?_, rfl, ?_⟩
    · simp only [processDynBatch]
      omega
    · simp [processDynBatch, specBatchCalls]
  | otherErr =>
    refine ⟨by simp [processDynBatch]; omega, rfl, rfl⟩

/-- Aggregate form of `processDynBatch_spec` over the whole batch loop,
starting from any batch index and state. -/
theorem dyn_foldl_spec {Item : Type} (env : Nat → DynOutcome) :
    ∀ (chunks : List (List Item)) (k : Nat) (st : DynState Item),
      ((chunks.enumFrom k).foldl
          (fun st p => processDynBatch (env p.1) p.2 st) st).successCount +
        ((chunks.enumFrom k).foldl
          (fun st p => processDynBatch (env p.1) p.2 st) st).errorCount =
        st.successCount + st.errorCount + (chunks.map List.length).sum ∧
      ((chunks.enumFrom k).foldl
          (fun st p => processDynBatch (env p.1) p.2 st) st).errorCount =
        st.errorCount +
          ((chunks.enumFrom k).map
            (fun p => unwrittenInBatch (env p.1) p.2)).sum ∧
      ((chunks.enumFrom k).foldl
          (fun st p => processDynBatch (env p.1) p.2 st) st).calls =
        st.calls ++
          ((chunks.enumFrom k).map
            (fun p => specBatchCalls (env p.1) p.2)).flatten := by
  intro chunks
  induction chunks with
  | nil => intro k st; exact ⟨by simp, by simp, by simp⟩
  | cons c rest ih =>
    intro k st
    obtain ⟨pc, pe, pcalls⟩ := processDynBatch_spec (env k) c st
    obtain ⟨ic, ie, icalls⟩ := ih (k + 1) (processDynBatch (env k) c st)
    rw [List.enumFrom_cons]
    refine ⟨?_, ?_, ?_⟩
    · rw [List.foldl_cons, ic]
      simp only [List.map_cons, List.sum_cons]
      omega
    · rw [List.foldl_cons, ie, pe]
      simp only [List.map_cons, List.sum_cons]
      omega
    · rw [List.foldl_cons, icalls, pcalls]
      simp only [List.map_cons, List.flatten_cons, List.append_assoc]

/-- C8: `batch_write_to_dynamodb` raises at the end exactly when the final
`error_count` is positive; the two counters always account for every input
record, so a normal return means zero errors and a success count equal to
the number of records; and the error count equals the number of records
written by neither their batch nor a per-item retry. -/
theorem dynamodb_batch_write_error_accounting {K D Item : Type}
    (prep : K → D → Item) (etfData : List (K × D)) (env : Nat → DynOutcome) :
    (batchWriteToDynamodb prep etfData env).raised =
      decide (0 < (batchWriteToDynamodb prep etfData env).errorCount) ∧
    (batchWriteToDynamodb prep etfData env).successCount +
      (batchWriteToDynamodb prep etfData env).errorCount = etfData.length ∧
    (batchWriteToDynamodb prep etfData env).errorCount =
      unwrittenTotal env
        (pyChunks (etfData.map (fun p => prep p.1 p.2))) := by
  obtain ⟨hc, he, _⟩ := dyn_foldl_spec env
    (pyChunks (etfData.map (fun p => prep p.1 p.2))) 0 ⟨[], 0, 0⟩
  refine ⟨rfl, ?_, ?_⟩
  · show (((pyChunks (etfData.map (fun p => prep p.1 p.2))).enum).foldl
        (fun st p => processDynBatch (env p.1) p.2 st)
        ⟨[], 0, 0⟩).successCount +
      (((pyChunks (etfData.map (fun p => prep p.1 p.2))).enum).foldl
        (fun st p => processDynBatch (env p.1) p.2 st) ⟨[], 0, 0⟩).errorCount =
      etfData.length
    rw [show ((pyChunks (etfData.map (fun p => prep p.1 p.2))).enum) =
        ((pyChunks (etfData.map (fun p => prep p.1 p.2))).enumFrom 0) from rfl,
      hc]
    have hlen : ((pyChunks (etfData.map (fun p => prep p.1 p.2))).map
        List.length).sum = (etfData.map (fun p => prep p.1 p.2)).length := by
      rw [← List.length_flatten, pyChunks_flatten]
    rw [hlen]
    simp
  · show (((pyChunks (etfData.map (fun p => prep p.1 p.2))).enum).foldl
        (fun st p => processDynBatch (env p.1) p.2 st) ⟨[], 0, 0⟩).errorCount =
      unwrittenTotal env (pyChunks (etfData.map (fun p => prep p.1 p.2)))
    rw [show ((pyChunks (etfData.map (fun p => prep p.1 p.2))).enum) =
        ((pyChunks (etfData.map (fun p => prep p.1 p.2))).enumFrom 0) from rfl,
      he]
    simp [unwrittenTotal, List.enum]

/-- The pages executed by `execute_batch` carry no per-item writes, no
rollbacks, and no commits, and it succeeds exactly when every page does. -/
theorem pgGo_spec {Item : Type} (env : Nat → Bool) :
    ∀ ps : List (Nat × List Item),
      (pgGo env ps).2 = ps.all (fun p => env p.1) ∧
      (pgGo env ps).1.countP (fun c => c.isPut) = 0 ∧
      (pgGo env ps).1.countP (fun c => c.isRoll) = 0 ∧
      (pgGo env ps).1.countP (fun c => c.isCommit) = 0 := by
  intro ps
  induction ps with
  | nil => exact ⟨rfl, rfl, rfl, rfl⟩
  | cons p rest ih =>
    obtain ⟨q, page⟩ := p
    obtain ⟨h2, hp, hr, hc⟩ := ih
    by_cases hq : env q
    · simp only [pgGo, hq, if_true, List.all_cons, Bool.true_and]
      refine ⟨h2, ?_, ?_, ?_⟩
      · rw [List.countP_cons, hp]
        rfl
      · rw [List.countP_cons, hr]
        rfl
      · rw [List.countP_cons, hc]
        rfl
    · simp [pgGo, hq, List.countP_cons, DbCall.isPut, DbCall.isRoll,
        DbCall.isCommit]

/-- C1 counterexample: a failing `batch_write_to_postgresql` run (here the
single batch of the one-record input fails) raises after rolling back
without issuing a single per-item write — the claimed per-item fallback does
not exist in the PostgreSQL helper. -/
theorem postgres_batch_failure_no_per_item_retry :
    (batchWriteToPostgresql (fun (_ : String) (_ : Unit) => ()) [("X", ())]
      (fun _ => false)).result = Except.error () ∧
    ((batchWriteToPostgresql (fun (_ : String) (_ : Unit) => ()) [("X", ())]
      (fun _ => false)).calls.countP (fun c => c.isPut)) = 0 ∧
    ((batchWriteToPostgresql (fun (_ : String) (_ : Unit) => ()) [("X", ())]
      (fun _ => false)).calls.countP (fun c => c.isExec)) = 1 ∧
    ((batchWriteToPostgresql (fun (_ : String) (_ : Unit) => ()) [("X", ())]
      (fun _ => false)).calls.countP (fun c => c.isRoll)) = 1 := by
  have hbw : batchWriteToPostgresql (fun (_ : String) (_ : Unit) => ())
      [("X", ())] (fun _ => false) =
      ⟨[DbCall.execPage [()], DbCall.rollback], Except.error ()⟩ := by
    simp [batchWriteToPostgresql, pyChunks, pgGo, BATCH_SIZE]
  rw [hbw]
  refine ⟨rfl, by decide, by decide, by decide⟩

/-- C1 (amended): both helpers slice the prepared records into `BATCH_SIZE`
(25) batches, but only the DynamoDB helper has a per-item fallback, and only
for batches failing with `ClientError` (as `specDynCalls` prescribes: one
batch write per chunk, plus an individual `put_item` for every item of a
`ClientError` batch and for no other batch); the PostgreSQL helper issues
its pages through one `execute_batch`, never writes per item, commits when
every page succeeds, and on any page failure rolls back and raises. -/
theorem batch_write_chunking_fallback_amended {K D Item : Type}
    (prep : K → D → Item) (etfData : List (K × D)) (envD : Nat → DynOutcome)
    (envP : Nat → Bool) :
    (pyChunks (etfData.map (fun p => prep p.1 p.2))).flatten =
      etfData.map (fun p => prep p.1 p.2) ∧
    ((pyChunks (etfData.map (fun p => prep p.1 p.2))).all
      (fun b => decide (0 < b.length) && decide (b.length ≤ BATCH_SIZE))) =
      true ∧
    (batchWriteToDynamodb prep etfData envD).calls =
      specDynCalls envD (pyChunks (etfData.map (fun p => prep p.1 p.2))) ∧
    (batchWriteToPostgresql prep etfData envP).calls.countP
      (fun c => c.isPut) = 0 ∧
    (batchWriteToPostgresql prep etfData envP).result =
      (if ((pyChunks (etfData.map (fun p => prep p.1 p.2))).enum.all
          (fun p => envP p.1))
        then Except.ok ((etfData.map (fun p => prep p.1 p.2)).length, 0)
        else Except.error ()) ∧
    (batchWriteToPostgresql prep etfData envP).calls.countP
      (fun c => c.isRoll) =
      (if ((pyChunks (etfData.map (fun p => prep p.1 p.2))).enum.all
          (fun p => envP p.1)) then 0 else 1) ∧
    (batchWriteToPostgresql prep etfData envP).calls.countP
      (fun c => c.isCommit) =
      (if ((pyChunks (etfData.map (fun p => prep p.1 p.2))).enum.all
          (fun p => envP p.1)) then 1 else 0) := by
  obtain ⟨_, _, hcalls⟩ := dyn_foldl_spec envD
    (pyChunks (etfData.map (fun p => prep p.1 p.2))) 0 ⟨[], 0, 0⟩
  obtain ⟨h2, hp, hr, hc⟩ := pgGo_spec envP
    ((pyChunks (etfData.map (fun p => prep p.1 p.2))).enum)
  refine ⟨pyChunks_flatten _, pyChunks_sizes _, ?_, ?_, ?_, ?_, ?_⟩
  · show (((pyChunks (etfData.map (fun p => prep p.1 p.2))).enum).foldl
        (fun st p => processDynBatch (envD p.1) p.2 st) ⟨[], 0, 0⟩).calls =
      specDynCalls envD (pyChunks (etfData.map (fun p => prep p.1 p.2)))
    rw [show ((pyChunks (etfData.map (fun p => prep p.1 p.2))).enum) =
        ((pyChunks (etfData.map (fun p => prep p.1 p.2))).enumFrom 0) from rfl,
      hcalls]
    simp [specDynCalls, List.enum]
  all_goals
    by_cases hall : ((pyChunks (etfData.map (fun p => prep p.1 p.2))).enum.all
      (fun p => envP p.1)) = true
  · have hres : batchWriteToPostgresql prep etfData envP =
        ⟨(pgGo envP ((pyChunks (etfData.map (fun p => prep p.1 p.2))).enum)).1
          ++ [DbCall.commit],
         Except.ok ((etfData.map (fun p => prep p.1 p.2)).length, 0)⟩ := by
      simp only [batchWriteToPostgresql]
      rw [h2, if_pos hall]
    rw [hres, List.countP_append, hp]
    rfl
  · have hres : batchWriteToPostgresql prep etfData envP =
        ⟨(pgGo envP ((pyChunks (etfData.map (fun p => prep p.1 p.2))).enum)).1
          ++ [DbCall.rollback],
         Except.error ()⟩ := by
      simp only [batchWriteToPostgresql]
      rw [h2, if_neg hall]
    rw [hres, List.countP_append, hp]
    rfl
  · have hres : batchWriteToPostgresql prep etfData envP =
        ⟨(pgGo envP ((pyChunks (etfData.map (fun p => prep p.1 p.2))).enum)).1
          ++ [DbCall.commit],
         Except.ok ((etfData.map (fun p => prep p.1 p.2)).length, 0)⟩ := by
      simp only [batchWriteToPostgresql]
      rw [h2, if_pos hall]
    rw [hres, if_pos hall]
  · have hres : batchWriteToPostgresql prep etfData envP =
        ⟨(pgGo envP ((pyChunks (etfData.map (fun p => prep p.1 p.2))).enum)).1
          ++ [DbCall.rollback],
         Except.error ()⟩ := by
      simp only [batchWriteToPostgresql]
      rw [h2, if_neg hall]
    rw [hres, if_neg hall]
  · have hres : batchWriteToPostgresql prep etfData envP =
        ⟨(pgGo envP ((pyChunks (etfData.map (fun p => prep p.1 p.2))).enum)).1
          ++ [DbCall.commit],
         Except.ok ((etfData.map (fun p => prep p.1 p.2)).length, 0)⟩ := by
      simp only [batchWriteToPostgresql]
      rw [h2, if_pos hall]
    rw [hres, List.countP_append, hr, if_pos hall]
    rfl
  · have hres : batchWriteToPostgresql prep etfData envP =
        ⟨(pgGo envP ((pyChunks (etfData.map (fun p => prep p.1 p.2))).enum)).1
          ++ [DbCall.rollback],
         Except.error ()⟩ := by
      simp only [batchWriteToPostgresql]
      rw [h2, if_neg hall]
    rw [hres, List.countP_append, hr, if_neg hall]
    rfl
  · have hres : batchWriteToPostgresql prep etfData envP =
        ⟨(pgGo envP ((pyChunks (etfData.map (fun p => prep p.1 p.2))).enum)).1
          ++ [DbCall.commit],
         Except.ok ((etfData.map (fun p => prep p.1 p.2)).length, 0)⟩ := by
      simp only [batchWriteToPostgresql]
      rw [h2, if_pos hall]
    rw [hres, List.countP_append, hc, if_pos hall]
    rfl
  · have hres : batchWriteToPostgresql prep etfData envP =
        ⟨(pgGo envP ((pyChunks (etfData.map (fun p => prep p.1 p.2))).enum)).1
          ++ [DbCall.rollback],
         Except.error ()⟩ := by
      simp only [batchWriteToPostgresql]
      rw [h2, if_neg hall]
    rw [hres, List.countP_append, hc, if_neg hall]
    rfl

/-- A successful `pyGet` lookup returns an element of the list. -/
theorem pyGet_mem {κ β : Type} [DecidableEq κ] {k : κ} {v : β} :
    ∀ {l : List (κ × β)}, pyGet k l = some v → (k, v) ∈ l := by
  intro l
  induction l with
  | nil => intro h; simp [pyGet] at h
  | cons p rest ih =>
    obtain ⟨q, w⟩ := p
    intro h
    rw [pyGet] at h
    by_cases hq : q = k
    · rw [if_pos hq] at h
      obtain rfl : w = v := Option.some.inj h
      subst hq
      exact List.mem_cons_self _ _
    · rw [if_neg hq] at h
      exact List.mem_cons_of_mem _ (ih h)

/-- One ticker step keeps every recorded trade well-formed: the only trade
it can add carries the current close, the ATH over past dates only, and a
drawdown at or below the negative threshold. -/
theorem tickStep_trades_wf (threshold : Rat)
    (data : List (String × List (Nat × Rat))) (d : Nat) (acc : BtState × Rat)
    (t : String)
    (H : ∀ tr ∈ acc.1.trades, TradeWellFormed data threshold tr) :
    ∀ tr ∈ (tickStep threshold data d acc t).1.trades,
      TradeWellFormed data threshold tr := by
  intro tr htr
  rw [tickStep] at htr
  cases hl : pyGet t data with
  | none =>
    rw [hl] at htr
    exact H tr htr
  | some series =>
    rw [hl] at htr
    simp only [Option.elim_some] at htr
    cases hp : pyGet d series with
    | none =>
      rw [hp] at htr
      exact H tr htr
    | some price =>
      rw [hp] at htr
      simp only [Option.elim_some] at htr
      split at htr
      next hcond =>
        rcases List.mem_append.mp htr with hold | hnew
        · exact H tr hold
        · obtain rfl := List.mem_singleton.mp hnew
          exact ⟨series, hl, hp, rfl, rfl, hcond.1⟩
      next =>
        exact H tr htr

/-- Trade well-formedness is preserved across the per-day ticker loop. -/
theorem foldl_tickStep_wf (threshold : Rat)
    (data : List (String × List (Nat × Rat))) (d : Nat) :
    ∀ (tickers : List String) (acc : BtState × Rat),
      (∀ tr ∈ acc.1.trades, TradeWellFormed data threshold tr) →
      ∀ tr ∈ ((tickers.foldl (tickStep threshold data d) acc).1.trades),
        TradeWellFormed data threshold tr := by
  intro tickers
  induction tickers with
  | nil => intro acc H; simpa using H
  | cons t ts ih =>
    intro acc H
    rw [List.foldl_cons]
    exact ih _ (tickStep_trades_wf threshold data d acc t H)

/-- Trade well-formedness is preserved across the whole day loop. -/
theorem runDays_trades_wf (threshold : Rat)
    (data : List (String × List (Nat × Rat))) (tickers : List String) :
    ∀ (dates : List Nat) (st : BtState),
      (∀ tr ∈ st.trades, TradeWellFormed data threshold tr) →
      ∀ tr ∈ (runDays threshold data tickers st dates).trades,
        TradeWellFormed data threshold tr := by
  intro dates
  induction dates with
  | nil => intro st H; simpa [runDays] using H
  | cons d ds ih =>
    intro st H
    rw [runDays, List.foldl_cons]
    refine ih (dayStep threshold data tickers st d) ?_
    intro tr htr
    exact foldl_tickStep_wf threshold data d tickers (st, st.cash) H tr htr

/-- C5: every BUY trade recorded by `backtest_strategy` is well-formed — its
price is the day's close, its ATH is `athAt`, the maximum close over dates
up to and including the trade's day (no future prices are consulted), and
its drawdown `(price - ath) / ath` is at or below the negative drop
threshold. -/
theorem backtest_buy_uses_past_ath (data : List (String × List (Nat × Rat)))
    (threshold : Rat) (tr : Trade)
    (h : tr ∈ (backtestStrategy data threshold).trades) :
    TradeWellFormed data threshold tr := by
  refine runDays_trades_wf threshold data MAG7_TICKERS (datesOf data)
    btInitState ?_ tr h
  intro tr0 htr0
  simp [btInitState] at htr0

/-- C5 witness: on a one-ticker data set with a single day and threshold
zero, the strategy records exactly one BUY, to which the theorem applies. -/
theorem backtest_buy_uses_past_ath_witness :
    ((⟨0, "AAPL", 100, 1000/7, 100, 0⟩ : Trade) ∈
      (backtestStrategy btData1 0).trades) ∧
    TradeWellFormed btData1 0 ⟨0, "AAPL", 100, 1000/7, 100, 0⟩ := by
  have hnone : ∀ (acc : BtState × Rat) (t : String), t ≠ "AAPL" →
      tickStep 0 btData1 0 acc t = acc := by
    intro acc t h
    have h2 : ("AAPL" : String) ≠ t := Ne.symm h
    simp [tickStep, pyGet, btData1, h2]
  have hbuy : tickStep 0 btData1 0 (btInitState, btInitState.cash) "AAPL" =
      ({ cash := 600000/7,
         shares := fun u => if u = "AAPL" then 1000/7 else 0,
         lastBuyDate := fun u => if u = "AAPL" then some 0 else none,
         lastBuyPrice := fun u => if u = "AAPL" then some 100 else none,
         trades := [⟨0, "AAPL", 100, 1000/7, 100, 0⟩],
         portfolioValues := [] }, 800000/7) := by
    norm_num [tickStep, pyGet, btData1, athAt, btInitState, POSITION_SIZE,
      INITIAL_CAPITAL, MAG7_TICKERS]
  have hdates : datesOf btData1 = [0] := by decide
  have hmem : (⟨0, "AAPL", 100, 1000/7, 100, 0⟩ : Trade) ∈
      (backtestStrategy btData1 0).trades := by
    have hrun : (backtestStrategy btData1 0).trades =
        [⟨0, "AAPL", 100, 1000/7, 100, 0⟩] := by
      simp [backtestStrategy, hdates, runDays, dayStep, MAG7_TICKERS, hbuy,
        hnone]
    rw [hrun]
    exact List.mem_singleton.mpr rfl
  exact ⟨hmem, backtest_buy_uses_past_ath btData1 0 _ hmem⟩

/-- The per-stock allocation is positive. -/
theorem POSITION_SIZE_pos : 0 < POSITION_SIZE := by
  norm_num [POSITION_SIZE, INITIAL_CAPITAL, MAG7_TICKERS]

/-- One ticker step preserves the capital invariant: a buy needs
`cash >= POSITION_SIZE`, zero current shares and positive price, deducts
exactly `POSITION_SIZE`, and records exactly one trade for that ticker. -/
theorem tickStep_inv (threshold : Rat)
    (data : List (String × List (Nat × Rat))) (d : Nat)
    (hpos : PricesPos data) (acc : BtState × Rat) (t : String)
    (H : BtInv acc.1) : BtInv (tickStep threshold data d acc t).1 := by
  rw [tickStep]
  cases hl : pyGet t data with
  | none => exact H
  | some series =>
    simp only [Option.elim_some]
    cases hp : pyGet d series with
    | none => exact H
    | some price =>
      simp only [Option.elim_some]
      split
      next hcond =>
        obtain ⟨hdd, hsh0, hcash⟩ := hcond
        obtain ⟨Hc, Hsum, Hper⟩ := H
        have hprice : 0 < price :=
          hpos (t, series) (pyGet_mem hl) (d, price) (pyGet_mem hp)
        unfold BtInv tradeCount
        dsimp only
        refine ⟨by linarith, ?_, ?_⟩
        · simp only [List.length_append, List.length_cons, List.length_nil]
          push_cast
          linarith [Hsum]
        · intro u
          by_cases hu : u = t
          · subst hu
            right
            refine ⟨?_, ?_⟩
            · rw [if_pos rfl]
              exact div_pos POSITION_SIZE_pos hprice
            · have h0 : acc.1.trades.countP
                  (fun tr => decide (tr.ticker = u)) = 0 := by
                rcases Hper u with ⟨_, h⟩ | ⟨hgt, _⟩
                · exact h
                · rw [hsh0] at hgt
                  exact absurd hgt (lt_irrefl 0)
              rw [List.countP_append, List.countP_cons, List.countP_nil, h0]
              simp
          · have hne : ¬(t = u) := fun e => hu e.symm
            have hcnt : List.countP (fun tr => decide (Trade.ticker tr = u))
                (acc.1.trades ++
                  [⟨d, t, price, POSITION_SIZE / price, athAt series d,
                    (price - athAt series d) / athAt series d * 100⟩]) =
                List.countP (fun tr => decide (Trade.ticker tr = u))
                  acc.1.trades := by
              rw [List.countP_append, List.countP_cons, List.countP_nil]
              simp [hne]
            rw [if_neg hu, hcnt]
            exact Hper u
      next =>
        exact H

/-- The capital invariant is preserved across the per-day ticker loop. -/
theorem foldl_tickStep_inv (threshold : Rat)
    (data : List (String × List (Nat × Rat))) (d : Nat)
    (hpos : PricesPos data) :
    ∀ (tickers : List String) (acc : BtState × Rat),
      BtInv acc.1 →
      BtInv ((tickers.foldl (tickStep threshold data d) acc)).1 := by
  intro tickers
  induction tickers with
  | nil => intro acc H; simpa using H
  | cons t ts ih =>
    intro acc H
    rw [List.foldl_cons]
    exact ih _ (tickStep_inv threshold data d hpos acc t H)

/-- The capital invariant is preserved across the whole day loop. -/
theorem runDays_inv (threshold : Rat)
    (data : List (String × List (Nat × Rat))) (tickers : List String)
    (hpos : PricesPos data) :
    ∀ (dates : List Nat) (st : BtState),
      BtInv st → BtInv (runDays threshold data tickers st dates) := by
  intro dates
  induction dates with
  | nil => intro st H; simpa [runDays] using H
  | cons d ds ih =>
    intro st H
    rw [runDays, List.foldl_cons]
    refine ih (dayStep threshold data tickers st d) ?_
    exact foldl_tickStep_inv threshold data d hpos tickers (st, st.cash) H

/-- The initial backtest state satisfies the capital invariant. -/
theorem btInitState_inv : BtInv btInitState := by
  refine ⟨by norm_num [btInitState, INITIAL_CAPITAL], ?_, ?_⟩
  · norm_num [btInitState, INITIAL_CAPITAL]
  · intro t
    left
    exact ⟨rfl, rfl⟩

/-- C9: throughout every run of `backtest_strategy` (over any ticker set and
any day list, so in particular over every prefix of the actual run), with
positive prices, cash never goes negative, cash plus `POSITION_SIZE` per
trade equals `INITIAL_CAPITAL`, each ticker is bought at most once, and the
invested capital `POSITION_SIZE * #trades` never exceeds
`INITIAL_CAPITAL`. -/
theorem backtest_capital_invariants
    (data : List (String × List (Nat × Rat))) (threshold : Rat)
    (hpos : PricesPos data) (tickers : List String) (dates : List Nat) :
    0 ≤ (runDays threshold data tickers btInitState dates).cash ∧
    (runDays threshold data tickers btInitState dates).cash +
      POSITION_SIZE *
        ((runDays threshold data tickers btInitState dates).trades.length :
          Rat) = INITIAL_CAPITAL ∧
    (∀ t, tradeCount (runDays threshold data tickers btInitState dates) t ≤
      1) ∧
    POSITION_SIZE *
      ((runDays threshold data tickers btInitState dates).trades.length :
        Rat) ≤ INITIAL_CAPITAL ∧
    backtestStrategy data threshold =
      runDays threshold data MAG7_TICKERS btInitState (datesOf data) := by
  obtain ⟨hc, hsum, hper⟩ :=
    runDays_inv threshold data tickers hpos dates btInitState btInitState_inv
  refine ⟨hc, hsum, ?_, by linarith, rfl⟩
  intro t
  rcases hper t with ⟨_, h⟩ | ⟨_, h⟩
  · omega
  · omega

/-- C9 witness: the invariants applied to the concrete two-day data set,
whose prices are positive. -/
theorem backtest_capital_invariants_witness :
    PricesPos btData0 ∧
    (0 ≤ (runDays (1/5) btData0 (["AAPL"]) btInitState [0, 1]).cash ∧
     (runDays (1/5) btData0 (["AAPL"]) btInitState [0, 1]).cash +
       POSITION_SIZE *
         (((runDays (1/5) btData0 (["AAPL"]) btInitState [0, 1]).trades.length :
           Rat)) = INITIAL_CAPITAL ∧
     (∀ t, tradeCount (runDays (1/5) btData0 (["AAPL"]) btInitState [0, 1]) t ≤
       1) ∧
     POSITION_SIZE *
       (((runDays (1/5) btData0 (["AAPL"]) btInitState [0, 1]).trades.length :
         Rat)) ≤ INITIAL_CAPITAL ∧
     backtestStrategy btData0 (1/5) =
       runDays (1/5) btData0 MAG7_TICKERS btInitState (datesOf btData0)) :=
  ⟨by unfold PricesPos; decide,
   backtest_capital_invariants btData0 (1/5) (by unfold PricesPos; decide)
     (["AAPL"]) [0, 1]⟩
